import Mathlib

/-!
Shallow embedding of `ralph_assets` form validation (`src/forms.py`).

Strings are modelled as `List Char`.  Python's `str.strip()` removes the
ASCII whitespace characters space, tab, newline, carriage return, vertical
tab and form feed from both ends; `re.split(",|\n", s)` splits at every
comma or newline character.  Errors raised as Django `ValidationError`s are
modelled by the spec's error taxonomy (`EmptyInput`, `DuplicateToken`,
`InvalidCharacter`, `LengthMismatch`, `ModeNotSetError`).
-/

instance {ε α : Type} [DecidableEq ε] [DecidableEq α] : DecidableEq (Except ε α) := fun a b =>
  match a, b with
  | .error e, .error f =>
      if h : e = f then .isTrue (by rw [h]) else .isFalse (fun hc => h (Except.error.inj hc))
  | .ok x, .ok y =>
      if h : x = y then .isTrue (by rw [h]) else .isFalse (fun hc => h (Except.ok.inj hc))
  | .error _, .ok _ => .isFalse (fun hc => Except.noConfusion hc)
  | .ok _, .error _ => .isFalse (fun hc => Except.noConfusion hc)

/-- Whitespace characters removed by Python's `str.strip()` (ASCII range). -/
def isPySpace (c : Char) : Bool :=
  c = ' ' || c = '\t' || c = '\n' || c = '\r' || c = Char.ofNat 11 || c = Char.ofNat 12

/-- Python `s.strip()`: drop `isPySpace` characters from both ends. -/
def pyStrip (s : List Char) : List Char :=
  List.rdropWhile isPySpace (List.dropWhile isPySpace s)

/-- Separator characters of `re.split(",|\n", data)` in `_validate_multivalue_data`. -/
def isSep (c : Char) : Bool :=
  c = ',' || c = '\n'

/-- Python `re.split(",|\n", data)`: split at every comma or newline,
keeping empty fragments (they are filtered afterwards by `filter(len, ...)`). -/
def splitFrags : List Char → List (List Char)
  | [] => [[]]
  | c :: cs =>
      if isSep c then [] :: splitFrags cs
      else
        match splitFrags cs with
        | [] => [[c]]
        | f :: fs => (c :: f) :: fs

/-- Validation errors of the multi-value parser, named as in the spec's
taxonomy.  In `src/forms.py` they are `ValidationError`s with the messages
"Field can't be empty..." (`EmptyInput`), "There are duplicate serial
numbers in field." (`DuplicateToken`) and "Serial number can't contain
white characters." (`InvalidCharacter`). -/
inductive ParseError
  | EmptyInput
  | DuplicateToken
  | InvalidCharacter
deriving DecidableEq, Repr

/-- The `for item in filter(len, re.split(",|\n", data))` loop body of
`_validate_multivalue_data`: strip the fragment; fail if it is already
accepted; fail if it contains a space; append it if non-empty. -/
def validateLoop : List (List Char) → List (List Char) → Except ParseError (List (List Char))
  | items, [] => .ok items
  | items, frag :: rest =>
      let item := pyStrip frag
      if item ∈ items then .error .DuplicateToken
      else if ' ' ∈ item then .error .InvalidCharacter
      else if item ≠ [] then validateLoop (items ++ [item]) rest
      else validateLoop items rest

/-- `_validate_multivalue_data` from `src/forms.py`: strip the input, fail
with `EmptyInput` if blank, run the fragment loop over the non-empty
fragments of the comma/newline split, and fail with `EmptyInput` if no
token was accepted. -/
def _validate_multivalue_data (data : List Char) : Except ParseError (List (List Char)) :=
  let d := pyStrip data
  if d = [] then .error .EmptyInput
  else
    match validateLoop [] ((splitFrags d).filter (fun f => !f.isEmpty)) with
    | .error e => .error e
    | .ok items => if items = [] then .error .EmptyInput else .ok items

/-- Python `",".join(tokens)`. -/
def joinComma : List (List Char) → List Char
  | [] => []
  | [t] => t
  | t :: ts => t ++ ',' :: joinComma ts

/-- Reference token list following the spec's words: split the trimmed input
on commas or newlines, trim each fragment, discard empty fragments,
preserving first-seen order.  Used to compare the code's accept path
(`_validate_multivalue_data`) against the spec. -/
def specTokens (data : List Char) : List (List Char) :=
  ((splitFrags (pyStrip data)).map pyStrip).filter (fun f => !f.isEmpty)

/-- An asset record of the external store, with the fields the uniqueness
checkers read: `sn`, `barcode`, `id` and `type`. -/
structure AssetRec where
  sn : List Char
  barcode : List Char
  id : Nat
  type : Nat
deriving DecidableEq, Repr

/-- `_check_serial_numbers_uniqueness` from `src/forms.py`:
`Asset.objects.filter(sn__in=serial_numbers)` is modelled as filtering an
explicit store; returns `(True, [])` when no record matches, otherwise
`(False, [(asset.sn, asset.id, asset.type), ...])`. -/
def _check_serial_numbers_uniqueness (store : List AssetRec)
    (serial_numbers : List (List Char)) : Bool × List (List Char × Nat × Nat) :=
  let assets := store.filter (fun a => decide (a.sn ∈ serial_numbers))
  if assets.isEmpty then (true, [])
  else (false, assets.map (fun a => (a.sn, a.id, a.type)))

/-- `_check_barcodes_uniqueness` from `src/forms.py`, same shape as the
serial-number checker but filtering on the `barcode` field. -/
def _check_barcodes_uniqueness (store : List AssetRec)
    (barcodes : List (List Char)) : Bool × List (List Char × Nat × Nat) :=
  let assets := store.filter (fun a => decide (a.barcode ∈ barcodes))
  if assets.isEmpty then (true, [])
  else (false, assets.map (fun a => (a.barcode, a.id, a.type)))

/-- The cross-field error of `AddDeviceForm.clean` ("Barcode list could be
empty or must have the same number of items as a SN list."), named
`LengthMismatch` as in the spec. -/
inductive CleanError
  | LengthMismatch
deriving DecidableEq, Repr

/-- `AddDeviceForm.clean` from `src/forms.py`: records a `LengthMismatch`
error on the barcode field when the barcode list is non-empty and its
length differs from the serial-number list's length. -/
def addDeviceFormClean (serial_numbers barcodes : List (List Char)) : Option CleanError :=
  if barcodes ≠ [] ∧ serial_numbers.length ≠ barcodes.length then some .LengthMismatch
  else none

/-- `DeviceForm.clean_size` from `src/forms.py`: `size not in range(0, 65535)`
raises a `ValidationError` whose message is "Invalid size, use range 0 to
65535"; for an integer, membership in `range(0, 65535)` means
`0 <= size < 65535`. -/
def clean_size (size : Int) : Except String Int :=
  if ¬(0 ≤ size ∧ size < 65535) then .error "Invalid size, use range 0 to 65535"
  else .ok size

/-- `ModeNotSetException` from `src/forms.py` (spec name: `ModeNotSetError`). -/
inductive ConfigError
  | ModeNotSet
deriving DecidableEq, Repr

/-- `BasePartForm.__init__` from `src/forms.py`: `kwargs.get('mode')` is
`None` when absent (modelled by `none`); any falsy mode (absent or the
empty string) raises `ModeNotSetException`; otherwise the form is built
with the device autocomplete channel `'asset_dcdevice' if mode == 'dc'
else 'asset_bodevice'`, returned here as the construction result. -/
def basePartFormInit (mode : Option String) : Except ConfigError String :=
  match mode with
  | none => .error .ModeNotSet
  | some m =>
      if m = "" then .error .ModeNotSet
      else .ok (if m = "dc" then "asset_dcdevice" else "asset_bodevice")

/-- Modelled from the spec: `AssetType.DC.choices` is defined in the
external `ralph.assets.models` package, not in this repository; the spec
describes it only as the data-center subset of the asset-type choices. -/
def dcTypeChoices : List (Nat × String) :=
  [(1, "data center")]

/-- Modelled from the spec: `AssetType.BO.choices`, the back-office subset
of the asset-type choices, also external to this repository. -/
def boTypeChoices : List (Nat × String) :=
  [(101, "back office"), (102, "administration")]

/-- Modelled from the spec: the unfiltered asset-type choice list that the
`type` model field carries when no branch of `__init__` replaces it; the
spec calls the mode-specific lists subsets "filtered" from it, so it
contains both subsets. -/
def allTypeChoices : List (Nat × String) :=
  dcTypeChoices ++ boTypeChoices

/-- `BaseAddAssetForm.__init__` from `src/forms.py`, restricted to the
`type`-choices it installs: the data-center subset when `mode == "dc"`,
the back-office subset when `mode == "back_office"`, and the field's
default (unfiltered) choices for any other mode. -/
def baseAddAssetFormInit (mode : Option String) : List (Nat × String) :=
  if mode = some "dc" then dcTypeChoices
  else if mode = some "back_office" then boTypeChoices
  else allTypeChoices

/-- `BaseAssetForm.__init__` from `src/forms.py`, identical `type`-choice
logic to `BaseAddAssetForm.__init__`. -/
def baseAssetFormInit (mode : Option String) : List (Nat × String) :=
  if mode = some "dc" then dcTypeChoices
  else if mode = some "back_office" then boTypeChoices
  else allTypeChoices

/-! Helper lemmas about `pyStrip`. -/

theorem pyStrip_nil : pyStrip [] = [] := rfl

theorem head?_pyStrip (s : List Char) : ∀ a ∈ (pyStrip s).head?, isPySpace a = false := by
  intro a ha
  unfold pyStrip at ha
  have hamem : (List.rdropWhile isPySpace (List.dropWhile isPySpace s)).head? = some a := by
    simpa using ha
  obtain ⟨u, hu⟩ := List.rdropWhile_prefix isPySpace (List.dropWhile isPySpace s)
  have h1 : (List.dropWhile isPySpace s).head? = some a := by
    rw [← hu, List.head?_append, hamem]
    rfl
  have htne : List.dropWhile isPySpace s ≠ [] := by
    intro h; rw [h] at h1; simp at h1
  have h2 := List.head_dropWhile_not isPySpace s htne
  have h3 : (List.dropWhile isPySpace s).head htne = a := by
    have h4 := List.head?_eq_head htne
    rw [h1] at h4
    exact (Option.some.inj h4).symm
  rw [← h3]
  exact h2

theorem getLast?_pyStrip (s : List Char) : ∀ a ∈ (pyStrip s).getLast?, isPySpace a = false := by
  intro a ha
  unfold pyStrip at ha
  have hne : List.rdropWhile isPySpace (List.dropWhile isPySpace s) ≠ [] := by
    intro h; rw [h] at ha; simp at ha
  have h2 := List.rdropWhile_last_not isPySpace (List.dropWhile isPySpace s) hne
  rw [List.getLast?_eq_getLast _ hne] at ha
  have h3 : (List.rdropWhile isPySpace (List.dropWhile isPySpace s)).getLast hne = a := by
    simpa using ha
  rw [← h3]
  simpa using h2

theorem pyStrip_eq_self {s : List Char}
    (h1 : ∀ a ∈ s.head?, isPySpace a = false)
    (h2 : ∀ a ∈ s.getLast?, isPySpace a = false) : pyStrip s = s := by
  unfold pyStrip
  have hd : List.dropWhile isPySpace s = s := by
    cases s with
    | nil => rfl
    | cons a t =>
        have ha := h1 a (by simp)
        simp [List.dropWhile_cons, ha]
  rw [hd, List.rdropWhile_eq_self_iff]
  intro hl
  have := h2 (s.getLast hl) (by rw [List.getLast?_eq_getLast _ hl]; simp)
  simp [this]

theorem mem_pyStrip {c : Char} {s : List Char} (h : c ∈ pyStrip s) : c ∈ s := by
  unfold pyStrip at h
  have h1 := (List.rdropWhile_prefix isPySpace (List.dropWhile isPySpace s)).sublist.subset h
  exact (List.dropWhile_suffix isPySpace).sublist.subset h1

/-! Helper lemmas about `splitFrags` and `joinComma`. -/

theorem splitFrags_ne_nil (s : List Char) : splitFrags s ≠ [] := by
  induction s with
  | nil => simp [splitFrags]
  | cons c cs ih =>
      simp only [splitFrags]
      split
      · simp
      · split <;> simp

theorem mem_splitFrags_sep_free {s : List Char} :
    ∀ f ∈ splitFrags s, ∀ c ∈ f, isSep c = false := by
  induction s with
  | nil =>
      intro f hf c hc
      simp only [splitFrags, List.mem_singleton] at hf
      subst hf
      simp at hc
  | cons a cs ih =>
      intro f hf c hc
      by_cases ha : isSep a = true
      · rw [splitFrags, if_pos ha] at hf
        rcases List.mem_cons.mp hf with hf | hf
        · subst hf
          simp at hc
        · exact ih f hf c hc
      · rw [splitFrags, if_neg ha] at hf
        rcases hsp : splitFrags cs with _ | ⟨g, gs⟩
        · exact absurd hsp (splitFrags_ne_nil cs)
        · rw [hsp] at hf
          simp only [List.mem_cons] at hf
          rcases hf with hf | hf
          · subst hf
            rcases List.mem_cons.mp hc with hc | hc
            · subst hc
              exact Bool.eq_false_iff.mpr ha
            · exact ih g (by rw [hsp]; exact List.mem_cons_self g gs) c hc
          · exact ih f (by rw [hsp]; exact List.mem_cons_of_mem g hf) c hc

theorem splitFrags_sep_free_eq {t : List Char} (h : ∀ c ∈ t, isSep c = false) :
    splitFrags t = [t] := by
  induction t with
  | nil => rfl
  | cons a t ih =>
      have ha : isSep a = false := h a (by simp)
      have ih' := ih (fun c hc => h c (by simp [hc]))
      simp [splitFrags, ha, ih']

theorem splitFrags_append_sep {t cs : List Char} (h : ∀ c ∈ t, isSep c = false) :
    splitFrags (t ++ ',' :: cs) = t :: splitFrags cs := by
  induction t with
  | nil => simp [splitFrags, isSep]
  | cons a t ih =>
      have ha : isSep a = false := h a (by simp)
      have ih' := ih (fun c hc => h c (by simp [hc]))
      simp [splitFrags, ha, ih']

theorem joinComma_two (t r : List Char) (ts : List (List Char)) :
    joinComma (t :: r :: ts) = t ++ ',' :: joinComma (r :: ts) := rfl

theorem joinComma_ne_nil {ts : List (List Char)} (hne : ts ≠ [])
    (h : ∀ t ∈ ts, t ≠ []) : joinComma ts ≠ [] := by
  cases ts with
  | nil => exact absurd rfl hne
  | cons t ts =>
      cases ts with
      | nil => exact h t (by simp)
      | cons r rs =>
          rw [joinComma_two]
          rcases t with _ | ⟨a, t⟩ <;> simp

theorem splitFrags_joinComma {ts : List (List Char)} (hne : ts ≠ [])
    (h : ∀ t ∈ ts, ∀ c ∈ t, isSep c = false) :
    splitFrags (joinComma ts) = ts := by
  induction ts with
  | nil => exact absurd rfl hne
  | cons t ts ih =>
      cases ts with
      | nil => simpa [joinComma] using splitFrags_sep_free_eq (h t (by simp))
      | cons r rs =>
          rw [joinComma_two, splitFrags_append_sep (h t (by simp)),
            ih (by simp) (fun u hu c hc => h u (by simp [hu]) c hc)]

theorem head?_joinComma {t : List Char} (ht : t ≠ []) (ts : List (List Char)) :
    (joinComma (t :: ts)).head? = t.head? := by
  cases ts with
  | nil => rfl
  | cons r rs =>
      rw [joinComma_two, List.head?_append]
      cases t with
      | nil => exact absurd rfl ht
      | cons a t => simp

theorem getLast?_joinComma {ts : List (List Char)} (hne : ts ≠ [])
    (h : ∀ t ∈ ts, t ≠ []) :
    ∃ t ∈ ts, (joinComma ts).getLast? = t.getLast? := by
  induction ts with
  | nil => exact absurd rfl hne
  | cons t ts ih =>
      cases ts with
      | nil => exact ⟨t, by simp, rfl⟩
      | cons r rs =>
          obtain ⟨u, hu, he⟩ := ih (by simp) (fun x hx => h x (by simp [hx]))
          refine ⟨u, by simp [hu], ?_⟩
          have hjne : joinComma (r :: rs) ≠ [] :=
            joinComma_ne_nil (by simp) (fun x hx => h x (by simp [hx]))
          rw [joinComma_two, List.getLast?_append_of_ne_nil _ (by simp)]
          rw [← he]
          cases hj : joinComma (r :: rs) with
          | nil => exact absurd hj hjne
          | cons b bs => rw [List.getLast?_cons_cons]

/-! Helper lemmas about `validateLoop`. -/

/-- Tokens accepted by the loop: non-empty, whitespace-trimmed at both ends,
free of spaces and of separator characters. -/
def goodToken (t : List Char) : Prop :=
  t ≠ [] ∧ (∀ a ∈ t.head?, isPySpace a = false) ∧ (∀ a ∈ t.getLast?, isPySpace a = false) ∧
    ' ' ∉ t ∧ ∀ c ∈ t, isSep c = false

theorem validateLoop_error_shape (frags : List (List Char)) :
    ∀ items e, validateLoop items frags = .error e →
      e = .DuplicateToken ∨ e = .InvalidCharacter := by
  induction frags with
  | nil => intro items e h; simp [validateLoop] at h
  | cons frag rest ih =>
      intro items e h
      simp only [validateLoop] at h
      by_cases h1 : pyStrip frag ∈ items
      · rw [if_pos h1] at h
        exact Or.inl (Except.error.inj h).symm
      · rw [if_neg h1] at h
        by_cases h2 : ' ' ∈ pyStrip frag
        · rw [if_pos h2] at h
          exact Or.inr (Except.error.inj h).symm
        · rw [if_neg h2] at h
          by_cases h3 : pyStrip frag ≠ []
          · rw [if_pos h3] at h
            exact ih _ _ h
          · rw [if_neg h3] at h
            exact ih _ _ h

theorem validateLoop_ok_eq (frags : List (List Char)) :
    ∀ items res, validateLoop items frags = .ok res →
      res = items ++ (frags.map pyStrip).filter (fun f => !f.isEmpty) := by
  induction frags with
  | nil =>
      intro items res h
      simp only [validateLoop, Except.ok.injEq] at h
      simp [← h]
  | cons frag rest ih =>
      intro items res h
      simp only [validateLoop] at h
      by_cases h1 : pyStrip frag ∈ items
      · rw [if_pos h1] at h
        exact absurd h (by simp)
      · rw [if_neg h1] at h
        by_cases h2 : ' ' ∈ pyStrip frag
        · rw [if_pos h2] at h
          exact absurd h (by simp)
        · rw [if_neg h2] at h
          by_cases h3 : pyStrip frag ≠ []
          · rw [if_pos h3] at h
            rw [ih _ _ h]
            simp [List.filter_cons, h3]
          · rw [if_neg h3] at h
            push_neg at h3
            rw [ih _ _ h]
            simp [List.filter_cons, h3]

theorem validateLoop_ok_nodup (frags : List (List Char)) :
    ∀ items res, items.Nodup → validateLoop items frags = .ok res → res.Nodup := by
  induction frags with
  | nil =>
      intro items res hn h
      simp only [validateLoop, Except.ok.injEq] at h
      rwa [← h]
  | cons frag rest ih =>
      intro items res hn h
      simp only [validateLoop] at h
      by_cases h1 : pyStrip frag ∈ items
      · rw [if_pos h1] at h
        exact absurd h (by simp)
      · rw [if_neg h1] at h
        by_cases h2 : ' ' ∈ pyStrip frag
        · rw [if_pos h2] at h
          exact absurd h (by simp)
        · rw [if_neg h2] at h
          by_cases h3 : pyStrip frag ≠ []
          · rw [if_pos h3] at h
            refine ih _ _ ?_ h
            rw [List.nodup_append]
            exact ⟨hn, List.nodup_singleton _, by simpa using h1⟩
          · rw [if_neg h3] at h
            exact ih _ _ hn h

theorem validateLoop_ok_good (frags : List (List Char)) :
    ∀ items res, (∀ f ∈ frags, ∀ c ∈ f, isSep c = false) →
      (∀ t ∈ items, goodToken t) → validateLoop items frags = .ok res →
      ∀ t ∈ res, goodToken t := by
  induction frags with
  | nil =>
      intro items res _ hi h
      simp only [validateLoop, Except.ok.injEq] at h
      rw [← h]
      exact hi
  | cons frag rest ih =>
      intro items res hsep hi h
      simp only [validateLoop] at h
      by_cases h1 : pyStrip frag ∈ items
      · rw [if_pos h1] at h
        exact absurd h (by simp)
      · rw [if_neg h1] at h
        by_cases h2 : ' ' ∈ pyStrip frag
        · rw [if_pos h2] at h
          exact absurd h (by simp)
        · rw [if_neg h2] at h
          by_cases h3 : pyStrip frag ≠ []
          · rw [if_pos h3] at h
            refine ih _ _ (fun f hf => hsep f (by simp [hf])) ?_ h
            intro t ht
            rcases List.mem_append.mp ht with ht | ht
            · exact hi t ht
            · have ht' : t = pyStrip frag := by simpa using ht
              subst ht'
              refine ⟨h3, head?_pyStrip frag, getLast?_pyStrip frag, h2, ?_⟩
              intro c hc
              exact hsep frag (by simp) c (mem_pyStrip hc)
          · rw [if_neg h3] at h
            exact ih _ _ (fun f hf => hsep f (by simp [hf])) hi h

theorem validateLoop_space_error (frags : List (List Char)) :
    ∀ items, (∃ f ∈ frags, ' ' ∈ pyStrip f) →
      ∃ e, validateLoop items frags = .error e := by
  induction frags with
  | nil => intro items h; simp at h
  | cons frag rest ih =>
      intro items h
      obtain ⟨f, hf, hspace⟩ := h
      simp only [validateLoop]
      by_cases h1 : pyStrip frag ∈ items
      · exact ⟨_, by rw [if_pos h1]⟩
      · rw [if_neg h1]
        by_cases h2 : ' ' ∈ pyStrip frag
        · exact ⟨_, by rw [if_pos h2]⟩
        · rw [if_neg h2]
          have hf' : f ∈ rest := by
            rcases List.mem_cons.mp hf with hh | hh
            · subst hh
              exact absurd hspace h2
            · exact hh
          by_cases h3 : pyStrip frag ≠ []
          · rw [if_pos h3]
            exact ih _ ⟨f, hf', hspace⟩
          · rw [if_neg h3]
            exact ih _ ⟨f, hf', hspace⟩

theorem validateLoop_not_dup_error (frags : List (List Char)) :
    ∀ items, (∀ t ∈ items, t ≠ []) →
      (items ++ (frags.map pyStrip).filter (fun f => !f.isEmpty)).Nodup →
      validateLoop items frags ≠ .error .DuplicateToken := by
  induction frags with
  | nil => intro items _ _ h; simp [validateLoop] at h
  | cons frag rest ih =>
      intro items hne hnd h
      simp only [validateLoop] at h
      by_cases h1 : pyStrip frag ∈ items
      · have hne' : pyStrip frag ≠ [] := hne _ h1
        have hmem2 : pyStrip frag ∈ ((frag :: rest).map pyStrip).filter (fun f => !f.isEmpty) := by
          simp [List.filter_cons, hne']
        exact (List.nodup_append.mp hnd).2.2 h1 hmem2
      · rw [if_neg h1] at h
        by_cases h2 : ' ' ∈ pyStrip frag
        · rw [if_pos h2] at h
          simp at h
        · rw [if_neg h2] at h
          by_cases h3 : pyStrip frag ≠ []
          · rw [if_pos h3] at h
            refine ih (items ++ [pyStrip frag]) ?_ ?_ h
            · intro t ht
              rcases List.mem_append.mp ht with ht | ht
              · exact hne t ht
              · have ht' : t = pyStrip frag := by simpa using ht
                rw [ht']
                exact h3
            · have hrw : ((frag :: rest).map pyStrip).filter (fun f => !f.isEmpty) =
                  pyStrip frag :: (rest.map pyStrip).filter (fun f => !f.isEmpty) := by
                simp [List.filter_cons, h3]
              rw [hrw] at hnd
              rw [List.append_assoc]
              simpa using hnd
          · rw [if_neg h3] at h
            push_neg at h3
            refine ih items hne ?_ h
            have hrw : ((frag :: rest).map pyStrip).filter (fun f => !f.isEmpty) =
                (rest.map pyStrip).filter (fun f => !f.isEmpty) := by
              simp [List.filter_cons, h3]
            rwa [hrw] at hnd

theorem validateLoop_accepts (rest : List (List Char)) :
    ∀ items, (∀ t ∈ rest, goodToken t) → (items ++ rest).Nodup →
      validateLoop items rest = .ok (items ++ rest) := by
  induction rest with
  | nil => intro items _ _; simp [validateLoop]
  | cons t ts ih =>
      intro items hg hnd
      obtain ⟨htne, hh, hl, hspace, _⟩ := hg t (by simp)
      have hstrip : pyStrip t = t := pyStrip_eq_self hh hl
      simp only [validateLoop, hstrip]
      have h1 : t ∉ items := by
        intro hmem
        exact (List.nodup_append.mp hnd).2.2 hmem (by simp)
      rw [if_neg h1, if_neg hspace, if_pos htne]
      have hstep := ih (items ++ [t]) (fun u hu => hg u (by simp [hu]))
        (by rw [List.append_assoc]; simpa using hnd)
      rw [hstep, List.append_assoc]
      rfl

/-! Helper lemmas about `_validate_multivalue_data` as a whole. -/

theorem parse_eq_branches (data : List Char) :
    _validate_multivalue_data data =
      if pyStrip data = [] then .error .EmptyInput
      else
        match validateLoop [] ((splitFrags (pyStrip data)).filter (fun f => !f.isEmpty)) with
        | .error e => .error e
        | .ok items => if items = [] then .error .EmptyInput else .ok items := rfl

theorem filter_map_filter_pyStrip (l : List (List Char)) :
    ((l.filter (fun f => !f.isEmpty)).map pyStrip).filter (fun f => !f.isEmpty) =
      (l.map pyStrip).filter (fun f => !f.isEmpty) := by
  induction l with
  | nil => rfl
  | cons a l ih =>
      by_cases ha : a = []
      · subst ha
        simp [List.filter_cons, pyStrip_nil, ih]
      · simp only [List.filter_cons, List.map_cons]
        rw [if_pos (by simpa using ha)]
        simp only [List.map_cons, List.filter_cons]
        rw [ih]

theorem parse_ok_eq {data : List Char} {res : List (List Char)}
    (h : _validate_multivalue_data data = .ok res) : res = specTokens data := by
  rw [parse_eq_branches] at h
  by_cases hd : pyStrip data = []
  · rw [if_pos hd] at h
    exact absurd h (by simp)
  · rw [if_neg hd] at h
    cases hv : validateLoop [] ((splitFrags (pyStrip data)).filter (fun f => !f.isEmpty)) with
    | error e =>
        rw [hv] at h
        exact absurd h (by simp)
    | ok items =>
        rw [hv] at h
        simp only at h
        by_cases hi : items = []
        · rw [if_pos hi] at h
          exact absurd h (by simp)
        · rw [if_neg hi] at h
          have heq := validateLoop_ok_eq _ _ _ hv
          rw [List.nil_append] at heq
          have : res = items := (Except.ok.inj h).symm
          rw [this, heq]
          unfold specTokens
          exact filter_map_filter_pyStrip _

theorem parse_ok_ne_nil {data : List Char} {res : List (List Char)}
    (h : _validate_multivalue_data data = .ok res) : res ≠ [] := by
  rw [parse_eq_branches] at h
  by_cases hd : pyStrip data = []
  · rw [if_pos hd] at h
    exact absurd h (by simp)
  · rw [if_neg hd] at h
    cases hv : validateLoop [] ((splitFrags (pyStrip data)).filter (fun f => !f.isEmpty)) with
    | error e =>
        rw [hv] at h
        exact absurd h (by simp)
    | ok items =>
        rw [hv] at h
        simp only at h
        by_cases hi : items = []
        · rw [if_pos hi] at h
          exact absurd h (by simp)
        · rw [if_neg hi] at h
          rw [← Except.ok.inj h]
          exact hi

theorem parse_ok_nodup {data : List Char} {res : List (List Char)}
    (h : _validate_multivalue_data data = .ok res) : res.Nodup := by
  rw [parse_eq_branches] at h
  by_cases hd : pyStrip data = []
  · rw [if_pos hd] at h
    exact absurd h (by simp)
  · rw [if_neg hd] at h
    cases hv : validateLoop [] ((splitFrags (pyStrip data)).filter (fun f => !f.isEmpty)) with
    | error e =>
        rw [hv] at h
        exact absurd h (by simp)
    | ok items =>
        rw [hv] at h
        simp only at h
        by_cases hi : items = []
        · rw [if_pos hi] at h
          exact absurd h (by simp)
        · rw [if_neg hi] at h
          rw [← Except.ok.inj h]
          exact validateLoop_ok_nodup _ _ _ List.nodup_nil hv

theorem parse_ok_good {data : List Char} {res : List (List Char)}
    (h : _validate_multivalue_data data = .ok res) : ∀ t ∈ res, goodToken t := by
  rw [parse_eq_branches] at h
  by_cases hd : pyStrip data = []
  · rw [if_pos hd] at h
    exact absurd h (by simp)
  · rw [if_neg hd] at h
    cases hv : validateLoop [] ((splitFrags (pyStrip data)).filter (fun f => !f.isEmpty)) with
    | error e =>
        rw [hv] at h
        exact absurd h (by simp)
    | ok items =>
        rw [hv] at h
        simp only at h
        by_cases hi : items = []
        · rw [if_pos hi] at h
          exact absurd h (by simp)
        · rw [if_neg hi] at h
          rw [← Except.ok.inj h]
          refine validateLoop_ok_good _ _ _ ?_ (by simp) hv
          intro f hf
          exact mem_splitFrags_sep_free f (List.mem_filter.mp hf).1

theorem specTokens_def (data : List Char) :
    specTokens data = ((splitFrags (pyStrip data)).map pyStrip).filter (fun f => !f.isEmpty) := rfl

theorem validateLoop_invalid_space (frags : List (List Char)) :
    ∀ items, validateLoop items frags = .error .InvalidCharacter →
      ∃ f ∈ frags, ' ' ∈ pyStrip f := by
  induction frags with
  | nil => intro items h; simp [validateLoop] at h
  | cons frag rest ih =>
      intro items h
      simp only [validateLoop] at h
      by_cases h1 : pyStrip frag ∈ items
      · rw [if_pos h1] at h
        simp at h
      · rw [if_neg h1] at h
        by_cases h2 : ' ' ∈ pyStrip frag
        · exact ⟨frag, by simp, h2⟩
        · rw [if_neg h2] at h
          by_cases h3 : pyStrip frag ≠ []
          · rw [if_pos h3] at h
            obtain ⟨f, hf, hs⟩ := ih _ h
            exact ⟨f, by simp [hf], hs⟩
          · rw [if_neg h3] at h
            obtain ⟨f, hf, hs⟩ := ih _ h
            exact ⟨f, by simp [hf], hs⟩

theorem validateLoop_all_empty (frags : List (List Char)) :
    ∀ items, [] ∉ items →
      (frags.map pyStrip).filter (fun f => !f.isEmpty) = [] →
      validateLoop items frags = .ok items := by
  induction frags with
  | nil => intro items _ _; simp [validateLoop]
  | cons frag rest ih =>
      intro items hni hfl
      simp only [List.map_cons, List.filter_cons] at hfl
      by_cases hfe : pyStrip frag = []
      · rw [if_neg (by simp [hfe])] at hfl
        simp only [validateLoop]
        rw [if_neg (fun hmem => hni (hfe ▸ hmem)), if_neg (by rw [hfe]; simp),
          if_neg (by simp [hfe])]
        exact ih items hni hfl
      · rw [if_pos (by simp [hfe])] at hfl
        simp at hfl

theorem parse_empty_iff (data : List Char) :
    _validate_multivalue_data data = .error .EmptyInput ↔
      (pyStrip data = [] ∨ specTokens data = []) := by
  constructor
  · intro h
    rw [parse_eq_branches] at h
    by_cases hd : pyStrip data = []
    · exact Or.inl hd
    · rw [if_neg hd] at h
      cases hv : validateLoop [] ((splitFrags (pyStrip data)).filter (fun f => !f.isEmpty)) with
      | error e =>
          rw [hv] at h
          simp only at h
          have he : e = .EmptyInput := Except.error.inj h
          rcases validateLoop_error_shape _ _ _ hv with hsh | hsh <;> simp [he] at hsh
      | ok items =>
          rw [hv] at h
          simp only at h
          by_cases hi : items = []
          · right
            have heq := validateLoop_ok_eq _ _ _ hv
            rw [List.nil_append] at heq
            rw [specTokens_def, ← filter_map_filter_pyStrip, ← heq, hi]
          · rw [if_neg hi] at h
            exact absurd h (by simp)
  · intro h
    rcases h with h | h
    · rw [parse_eq_branches, if_pos h]
    · by_cases hd : pyStrip data = []
      · rw [parse_eq_branches, if_pos hd]
      · rw [parse_eq_branches, if_neg hd]
        have hflt : (((splitFrags (pyStrip data)).filter (fun f => !f.isEmpty)).map
            pyStrip).filter (fun f => !f.isEmpty) = [] := by
          rw [filter_map_filter_pyStrip, ← specTokens_def]
          exact h
        rw [validateLoop_all_empty _ [] (by simp) hflt]
        simp

theorem parse_space_error {data : List Char}
    (hsp : ∃ f ∈ splitFrags (pyStrip data), ' ' ∈ pyStrip f) :
    (∃ e, _validate_multivalue_data data = .error e ∧
      (e = .InvalidCharacter ∨ e = .DuplicateToken)) ∧
    ((specTokens data).Nodup → _validate_multivalue_data data = .error .InvalidCharacter) := by
  obtain ⟨f, hf, hs⟩ := hsp
  have hd : pyStrip data ≠ [] := by
    intro hdd
    rw [hdd] at hf
    simp only [splitFrags, List.mem_singleton] at hf
    rw [hf, pyStrip_nil] at hs
    simp at hs
  have hfmem : f ∈ (splitFrags (pyStrip data)).filter (fun f => !f.isEmpty) := by
    rw [List.mem_filter]
    refine ⟨hf, ?_⟩
    have hfne : ' ' ∈ f := mem_pyStrip hs
    cases f with
    | nil => simp at hfne
    | cons a t => rfl
  obtain ⟨e, he⟩ := validateLoop_space_error _ [] ⟨f, hfmem, hs⟩
  have hshape := validateLoop_error_shape _ _ _ he
  have hparse : _validate_multivalue_data data = .error e := by
    rw [parse_eq_branches, if_neg hd, he]
  refine ⟨⟨e, hparse, hshape.symm⟩, ?_⟩
  intro hnd
  rcases hshape with hsh | hsh
  · exfalso
    rw [hsh] at he
    refine validateLoop_not_dup_error _ [] (by simp) ?_ he
    rw [List.nil_append, filter_map_filter_pyStrip, ← specTokens_def]
    exact hnd
  · rw [hparse, hsh]

theorem parse_dup_error {data : List Char}
    (hdup : ¬ (specTokens data).Nodup) :
    (∃ e, _validate_multivalue_data data = .error e ∧
      (e = .DuplicateToken ∨ e = .InvalidCharacter)) ∧
    ((∀ f ∈ splitFrags (pyStrip data), ' ' ∉ pyStrip f) →
      _validate_multivalue_data data = .error .DuplicateToken) := by
  have hd : pyStrip data ≠ [] := by
    intro hdd
    apply hdup
    rw [specTokens_def, hdd]
    simp [splitFrags, pyStrip_nil]
  cases hv : validateLoop [] ((splitFrags (pyStrip data)).filter (fun f => !f.isEmpty)) with
  | ok items =>
      exfalso
      apply hdup
      have heq := validateLoop_ok_eq _ _ _ hv
      rw [List.nil_append] at heq
      have hnd := validateLoop_ok_nodup _ _ _ List.nodup_nil hv
      rw [heq, filter_map_filter_pyStrip, ← specTokens_def] at hnd
      exact hnd
  | error e =>
      have hparse : _validate_multivalue_data data = .error e := by
        rw [parse_eq_branches, if_neg hd, hv]
      have hshape := validateLoop_error_shape _ _ _ hv
      refine ⟨⟨e, hparse, hshape⟩, ?_⟩
      intro hnos
      rcases hshape with hsh | hsh
      · rw [hparse, hsh]
      · exfalso
        rw [hsh] at hv
        obtain ⟨f, hf, hs⟩ := validateLoop_invalid_space _ [] hv
        exact hnos f (List.mem_filter.mp hf).1 hs

/-! Claim theorems. -/

/-- C7: parsing `"a,b,c"` and `"a\nb\nc"` both succeed with the token
sequence `["a","b","c"]` in that order; in general, every successful parse
returns exactly the trimmed non-empty fragments of the comma/newline split
of the trimmed input, in first-seen order (`specTokens`). -/
theorem parse_splits_trims_ordered :
    _validate_multivalue_data ['a', ',', 'b', ',', 'c'] = .ok [['a'], ['b'], ['c']] ∧
    _validate_multivalue_data ['a', '\n', 'b', '\n', 'c'] = .ok [['a'], ['b'], ['c']] ∧
    ∀ data res, _validate_multivalue_data data = .ok res → res = specTokens data :=
  ⟨by decide, by decide, fun _ _ h => parse_ok_eq h⟩

/-- Witness for C7: the general clause applied to the concrete input `"a,b"`. -/
theorem parse_splits_trims_ordered_witness :
    ([['a'], ['b']] : List (List Char)) = specTokens ['a', ',', 'b'] :=
  parse_splits_trims_ordered.2.2 ['a', ',', 'b'] [['a'], ['b']] (by decide)

/-- C8: the multi-value parser fails with `EmptyInput` exactly when the
input is empty after trimming or when the trimmed fragment pass yields no
token (`specTokens data = []`), and a successful parse never returns an
empty token sequence. -/
theorem parse_empty_input_iff :
    ∀ data, (_validate_multivalue_data data = .error .EmptyInput ↔
        (pyStrip data = [] ∨ specTokens data = [])) ∧
      ∀ res, _validate_multivalue_data data = .ok res → res ≠ [] :=
  fun data => ⟨parse_empty_iff data, fun _ h => parse_ok_ne_nil h⟩

/-- Witness for C8: `"   "` fails with `EmptyInput` via the iff, and the
successful parse of `"a"` is non-empty via the second clause. -/
theorem parse_empty_input_iff_witness :
    _validate_multivalue_data [' ', ' ', ' '] = .error .EmptyInput ∧
      ([['a']] : List (List Char)) ≠ [] :=
  ⟨(parse_empty_input_iff [' ', ' ', ' ']).1.mpr (Or.inl (by decide)),
    (parse_empty_input_iff ['a']).2 [['a']] (by decide)⟩

/-- Counterexample for C9 as stated: in `"a,b c,a"` the third fragment
`"a"` equals the already-accepted first token `"a"`, yet parsing fails
with `InvalidCharacter` (raised at the earlier fragment `"b c"`), not with
`DuplicateToken`. -/
theorem duplicate_preempted_by_space_fragment :
    splitFrags (pyStrip ['a', ',', 'b', ' ', 'c', ',', 'a']) =
      [['a'], ['b', ' ', 'c'], ['a']] ∧
    _validate_multivalue_data ['a', ',', 'b', ' ', 'c', ',', 'a'] =
      .error .InvalidCharacter ∧
    _validate_multivalue_data ['a', ',', 'b', ' ', 'c', ',', 'a'] ≠
      .error .DuplicateToken := by decide

/-- C9 (amended): parsing `"a,a"` fails with `DuplicateToken`; if the
trimmed non-empty fragments contain a duplicate, parsing fails with
`DuplicateToken` or — when a space-containing fragment precedes the
duplicate — with `InvalidCharacter`, and with `DuplicateToken` whenever no
fragment contains a space; every successfully parsed token sequence is
pairwise distinct. -/
theorem duplicate_fragments_rejected :
    _validate_multivalue_data ['a', ',', 'a'] = .error .DuplicateToken ∧
    ∀ data, (¬ (specTokens data).Nodup →
        (∃ e, _validate_multivalue_data data = .error e ∧
          (e = .DuplicateToken ∨ e = .InvalidCharacter)) ∧
        ((∀ f ∈ splitFrags (pyStrip data), ' ' ∉ pyStrip f) →
          _validate_multivalue_data data = .error .DuplicateToken)) ∧
      ∀ res, _validate_multivalue_data data = .ok res → res.Nodup :=
  ⟨by decide, fun _ => ⟨fun hdup => parse_dup_error hdup, fun _ h => parse_ok_nodup h⟩⟩

/-- Witness for C9: the amended clause applied to the concrete input
`"b,b"`, whose trimmed fragment list `[["b"],["b"]]` has a duplicate and
no space, forcing `DuplicateToken`. -/
theorem duplicate_fragments_rejected_witness :
    _validate_multivalue_data ['b', ',', 'b'] = .error .DuplicateToken :=
  ((duplicate_fragments_rejected.2 ['b', ',', 'b']).1 (by decide)).2 (by decide)

/-- Counterexample for C1 as stated: the tab is a whitespace character, the
single fragment of `"a\tb"` contains it, yet parsing succeeds (the code
only checks for the space character `' '`). -/
theorem tab_fragment_accepted :
    isPySpace '\t' = true ∧
    splitFrags (pyStrip ['a', '\t', 'b']) = [['a', '\t', 'b']] ∧
    '\t' ∈ pyStrip ['a', '\t', 'b'] ∧
    _validate_multivalue_data ['a', '\t', 'b'] = .ok [['a', '\t', 'b']] := by decide

/-- C1 (amended): if any fragment (after splitting on commas or newlines
and trimming) contains a space character `' '` — the only whitespace the
code checks for — parsing fails, with `InvalidCharacter` unless an earlier
duplicated fragment raises `DuplicateToken` first; in particular it fails
with `InvalidCharacter` whenever the trimmed fragments are duplicate-free. -/
theorem space_fragment_fails_invalid_character (data : List Char)
    (hsp : ∃ f ∈ splitFrags (pyStrip data), ' ' ∈ pyStrip f) :
    (∃ e, _validate_multivalue_data data = .error e ∧
      (e = .InvalidCharacter ∨ e = .DuplicateToken)) ∧
    ((specTokens data).Nodup →
      _validate_multivalue_data data = .error .InvalidCharacter) :=
  parse_space_error hsp

/-- Witness for C1: the amended claim applied to the concrete input
`"a b"`, which fails with `InvalidCharacter`. -/
theorem space_fragment_fails_invalid_character_witness :
    _validate_multivalue_data ['a', ' ', 'b'] = .error .InvalidCharacter :=
  (space_fragment_fails_invalid_character ['a', ' ', 'b'] (by decide)).2 (by decide)

/-- C4: if the multi-value parser succeeds on `data` with token sequence
`res`, then parsing the comma-join of `res` succeeds and returns the same
token sequence. -/
theorem parse_join_roundtrip (data : List Char) (res : List (List Char))
    (h : _validate_multivalue_data data = .ok res) :
    _validate_multivalue_data (joinComma res) = .ok res := by
  have hgood := parse_ok_good h
  have hnd := parse_ok_nodup h
  have hne := parse_ok_ne_nil h
  have hsepfree : ∀ t ∈ res, ∀ c ∈ t, isSep c = false := fun t ht => (hgood t ht).2.2.2.2
  have htne : ∀ t ∈ res, t ≠ [] := fun t ht => (hgood t ht).1
  have hhead : ∀ a ∈ (joinComma res).head?, isPySpace a = false := by
    cases res with
    | nil => exact absurd rfl hne
    | cons t ts =>
        rw [head?_joinComma (htne t (by simp)) ts]
        exact (hgood t (by simp)).2.1
  have hlast : ∀ a ∈ (joinComma res).getLast?, isPySpace a = false := by
    obtain ⟨u, hu, he⟩ := getLast?_joinComma hne htne
    rw [he]
    exact (hgood u hu).2.2.1
  have hstrip : pyStrip (joinComma res) = joinComma res := pyStrip_eq_self hhead hlast
  have hjne : joinComma res ≠ [] := joinComma_ne_nil hne htne
  have hsplit : splitFrags (joinComma res) = res := splitFrags_joinComma hne hsepfree
  have hfilter : res.filter (fun f => !f.isEmpty) = res := by
    rw [List.filter_eq_self]
    intro t ht
    cases hte : t with
    | nil => exact absurd hte (htne t ht)
    | cons a l => rfl
  have hloop := validateLoop_accepts res [] (fun t ht => hgood t ht) (by simpa using hnd)
  rw [List.nil_append] at hloop
  rw [parse_eq_branches, hstrip, if_neg hjne, hsplit, hfilter, hloop]
  simp [hne]

/-- Witness for C4: the round trip applied to the parse of `"a,b"`. -/
theorem parse_join_roundtrip_witness :
    _validate_multivalue_data (joinComma [['a'], ['b']]) = .ok [['a'], ['b']] :=
  parse_join_roundtrip ['a', ',', 'b'] [['a'], ['b']] (by decide)

/-- C3: each uniqueness checker passes with an empty conflict list exactly
when no stored asset has its selected field (serial number resp. barcode)
among the tokens; on failure the conflict list holds one
`(token, record id, record type)` triple per matching stored record; in
particular a store with one record of serial number `"sn-123"` checked
against `["sn-123","sn-999"]` fails with exactly that record's triple. -/
theorem uniqueness_check_characterization :
    (∀ store tokens,
      (_check_serial_numbers_uniqueness store tokens = (true, []) ↔
        ∀ a ∈ store, a.sn ∉ tokens) ∧
      (_check_serial_numbers_uniqueness store tokens).2 =
        (store.filter (fun a => decide (a.sn ∈ tokens))).map
          (fun a => (a.sn, a.id, a.type)) ∧
      (_check_barcodes_uniqueness store tokens = (true, []) ↔
        ∀ a ∈ store, a.barcode ∉ tokens) ∧
      (_check_barcodes_uniqueness store tokens).2 =
        (store.filter (fun a => decide (a.barcode ∈ tokens))).map
          (fun a => (a.barcode, a.id, a.type))) ∧
    _check_serial_numbers_uniqueness
        [⟨['s', 'n', '-', '1', '2', '3'], ['b', 'c', '1'], 7, 3⟩]
        [['s', 'n', '-', '1', '2', '3'], ['s', 'n', '-', '9', '9', '9']] =
      (false, [(['s', 'n', '-', '1', '2', '3'], 7, 3)]) := by
  refine ⟨?_, by decide⟩
  intro store tokens
  refine ⟨?_, ?_, ?_, ?_⟩
  · unfold _check_serial_numbers_uniqueness
    simp only [List.isEmpty_iff]
    by_cases hf : store.filter (fun a => decide (a.sn ∈ tokens)) = []
    · rw [if_pos hf]
      constructor
      · intro _ a ha
        simpa using List.filter_eq_nil_iff.mp hf a ha
      · intro _
        rfl
    · rw [if_neg hf]
      constructor
      · intro h
        simp at h
      · intro hall
        exfalso
        apply hf
        rw [List.filter_eq_nil_iff]
        intro a ha
        simpa using hall a ha
  · unfold _check_serial_numbers_uniqueness
    simp only [List.isEmpty_iff]
    by_cases hf : store.filter (fun a => decide (a.sn ∈ tokens)) = []
    · rw [if_pos hf, hf]
      rfl
    · rw [if_neg hf]
  · unfold _check_barcodes_uniqueness
    simp only [List.isEmpty_iff]
    by_cases hf : store.filter (fun a => decide (a.barcode ∈ tokens)) = []
    · rw [if_pos hf]
      constructor
      · intro _ a ha
        simpa using List.filter_eq_nil_iff.mp hf a ha
      · intro _
        rfl
    · rw [if_neg hf]
      constructor
      · intro h
        simp at h
      · intro hall
        exfalso
        apply hf
        rw [List.filter_eq_nil_iff]
        intro a ha
        simpa using hall a ha
  · unfold _check_barcodes_uniqueness
    simp only [List.isEmpty_iff]
    by_cases hf : store.filter (fun a => decide (a.barcode ∈ tokens)) = []
    · rw [if_pos hf, hf]
      rfl
    · rw [if_neg hf]

/-- C5: device-creation cross-field validation records `LengthMismatch`
exactly when the barcode list is non-empty and its length differs from the
serial-number list's length; an empty barcode list always passes; in
particular serial-number length 2 with barcode length 1 fails. -/
theorem device_clean_length_pairing :
    ∀ serial_numbers barcodes : List (List Char),
      (addDeviceFormClean serial_numbers barcodes = some .LengthMismatch ↔
        barcodes ≠ [] ∧ serial_numbers.length ≠ barcodes.length) ∧
      addDeviceFormClean serial_numbers [] = none ∧
      addDeviceFormClean [['a'], ['b']] [['x']] = some .LengthMismatch := by
  intro sns bcs
  refine ⟨?_, ?_, by decide⟩
  · unfold addDeviceFormClean
    by_cases h : bcs ≠ [] ∧ sns.length ≠ bcs.length
    · rw [if_pos h]
      simp [h]
    · rw [if_neg h]
      simp [h]
  · unfold addDeviceFormClean
    simp

/-- C10: `clean_size` accepts an integer size exactly when
`0 ≤ size ≤ 65534` and otherwise raises the validation error whose message
names the range 0 to 65535; in particular size 65535 is rejected with that
message. -/
theorem clean_size_accepts_iff_in_range :
    ∀ size : Int,
      (clean_size size = .ok size ↔ 0 ≤ size ∧ size ≤ 65534) ∧
      (clean_size size = .error "Invalid size, use range 0 to 65535" ↔
        ¬(0 ≤ size ∧ size ≤ 65534)) ∧
      clean_size 65535 = .error "Invalid size, use range 0 to 65535" ∧
      clean_size 65534 = .ok 65534 := by
  intro size
  refine ⟨?_, ?_, by decide, by decide⟩
  · unfold clean_size
    by_cases h : 0 ≤ size ∧ size < 65535
    · rw [if_neg (not_not_intro h)]
      constructor
      · intro _
        exact ⟨h.1, by omega⟩
      · intro _
        rfl
    · rw [if_pos h]
      constructor
      · intro hc
        exact absurd hc (by simp)
      · intro hc
        exact absurd (⟨hc.1, by omega⟩ : 0 ≤ size ∧ size < 65535) h
  · unfold clean_size
    by_cases h : 0 ≤ size ∧ size < 65535
    · rw [if_neg (not_not_intro h)]
      constructor
      · intro hc
        exact absurd hc (by simp)
      · intro hc
        exact absurd (⟨h.1, by omega⟩ : 0 ≤ size ∧ size ≤ 65534) hc
    · rw [if_pos h]
      constructor
      · intro _
        intro hc
        exact h ⟨hc.1, by omega⟩
      · intro _
        rfl

/-- Counterexample for C6 as stated: constructing the part form with a mode
selector that is the empty string still raises `ModeNotSetException`,
because the code tests the mode's truthiness, not its presence. -/
theorem part_form_empty_mode_raises :
    basePartFormInit (some "") = .error .ModeNotSet := by decide

/-- C6 (amended): constructing a part form without a mode selector — or
with an empty-string one, since the code tests truthiness — raises
`ModeNotSetException` at construction time, a caller-configuration error
distinct from the parser's user-input validation errors; with any
non-empty mode the construction succeeds, resolving the device channel
`"asset_dcdevice"` when the mode is `"dc"` and `"asset_bodevice"`
otherwise. -/
theorem part_form_requires_mode :
    basePartFormInit none = .error .ModeNotSet ∧
    ∀ m : String, m ≠ "" →
      basePartFormInit (some m) =
        .ok (if m = "dc" then "asset_dcdevice" else "asset_bodevice") := by
  refine ⟨rfl, ?_⟩
  intro m hm
  simp [basePartFormInit, hm]

/-- Witness for C6: construction with mode `"dc"` succeeds with the
data-center device channel. -/
theorem part_form_requires_mode_witness :
    basePartFormInit (some "dc") = .ok "asset_dcdevice" := by
  have h := part_form_requires_mode.2 "dc" (by decide)
  simpa using h

/-- Counterexample for C2 as stated: a mode other than `"dc"` and
`"back_office"` (here `"bo"`) leaves the default unfiltered choice list in
place, which shares the data-center choices with the `"dc"` form, so the
two choice sets are not disjoint. -/
theorem unknown_mode_keeps_default_choices :
    baseAddAssetFormInit (some "bo") = allTypeChoices ∧
    (1, "data center") ∈ baseAddAssetFormInit (some "dc") ∧
    (1, "data center") ∈ baseAddAssetFormInit (some "bo") := by decide

/-- C2 (amended): at form construction, mode `"dc"` installs the
data-center asset-type choice subset and mode `"back_office"` installs the
back-office subset (any other mode keeps the full default list); the two
subsets are non-empty and disjoint. -/
theorem mode_type_choice_subsets :
    baseAddAssetFormInit (some "dc") = dcTypeChoices ∧
    baseAddAssetFormInit (some "back_office") = boTypeChoices ∧
    baseAssetFormInit (some "dc") = dcTypeChoices ∧
    baseAssetFormInit (some "back_office") = boTypeChoices ∧
    dcTypeChoices ≠ [] ∧
    boTypeChoices ≠ [] ∧
    dcTypeChoices.inter boTypeChoices = [] := by decide

